import Mathlib

/-!
A verification development for the cold-redundancy PSU engine
(`src/cold_redundancy.cpp` of Intel-BMC/psu-manager).

The definitions below are a shallow embedding of the relevant parts of the
source file.  Machine integers that matter for behaviour are modelled as
`Nat` with explicit `% 256` where the C++ performs `uint8_t` arithmetic
(the re-ranking loop counters `index` and `psuNumber`, the rank-order index
in the `refreshConfig` handler, and the `uint8_t value` parameter of
`writePmbus`).  Hardware register writes are modelled as emitted
`PmbusWrite` records; the asynchronous settle timers are modelled by
splitting each operation into its synchronous entry
(`configCREntry` / `rotateCREntry`) and its timer continuation
(`configCRSettle` / `rotateCRSettle`), with the timer outcome
(`TimerResult`) passed explicitly.
-/

/-- PSU functional state; `PSUState` in the source (`normal` / `acLost`). -/
inductive PSUState
  | normal
  | acLost
  deriving DecidableEq, Repr

/-- Rotation algorithm; `Algo` in the source (`bmcSpecific` / `userSpecific`). -/
inductive Algo
  | bmcSpecific
  | userSpecific
  deriving DecidableEq, Repr

/-- Redundancy status; `Status` in the source (`completed` / `inProgress`). -/
inductive Status
  | completed
  | inProgress
  deriving DecidableEq, Repr

/-- The four health classes published through the association interface:
`associationsOk`, `associationsWarning`, `associationsNonCrit`,
`associationsCrit` in the source. -/
inductive HealthClass
  | ok
  | warning
  | nonCritical
  | critical
  deriving DecidableEq, Repr

/-- One managed power supply (`class PowerSupply`).  The field declarations
live in `cold_redundancy.hpp`, which is not part of the given sources; the
`order` field is modelled from the spec as a plain rank value (`0` means
"not participating in redundancy"), and `bus`/`address` as plain numbers.
The constructor visible in the source takes `uint8_t` bus, address and
order, so all values entering these fields are below 256. -/
structure PowerSupply where
  name : String
  bus : Nat
  address : Nat
  order : Nat
  state : PSUState
  deriving DecidableEq, Repr

/-- One call of `ColdRedundancy::writePmbus` issued to the hardware:
bus, slave address and the single-byte value written to the
redundancy-order register. -/
structure PmbusWrite where
  bus : Nat
  addr : Nat
  value : Nat
  deriving DecidableEq, Repr

/-- The engine state: the dbus-exposed properties of `ColdRedundancy`
together with the process-wide `powerSupplies` fleet.  `numberOfPSU` is the
separate fleet counter kept by `createPSU` (used by the health classifier
as the total). -/
structure CRState where
  crSupported : Bool
  powerSupplyRedundancyEnabled : Bool
  rotationEnabled : Bool
  rotationAlgorithm : Algo
  rotationRankOrder : List Nat
  coldRedundancyStatus : Status
  redundantCount : Nat
  numberOfPSU : Nat
  powerSupplies : List PowerSupply
  deriving DecidableEq, Repr

/-- Outcome of an asio timer wait as observed by its completion handler:
`aborted` (`boost::asio::error::operation_aborted`, i.e. the timer was
cancelled / superseded), any other nonzero error code, or a normal fire. -/
inductive TimerResult
  | aborted
  | otherError
  | fired
  deriving DecidableEq, Repr

/-- `retryCount` constant from the source (line 35). -/
def retryCount : Nat := 3

/-- Number of PSUs whose state is `normal` (the `goodPSUCount` /
`psuWorkable` counting loops of the source). -/
def normalCount (ps : List PowerSupply) : Nat :=
  ps.countP fun p => decide (p.state = PSUState.normal)

/-- `ColdRedundancy::putWarmRedundant` (lines 845-858): if `crSupported`,
write order `0` to every PSU in `normal` state. -/
def putWarmRedundantWrites (st : CRState) : List PmbusWrite :=
  if st.crSupported then
    st.powerSupplies.filterMap fun p =>
      if p.state = PSUState.normal then some ⟨p.bus, p.address, 0⟩ else none
  else []

/-- The synchronous entry of `ColdRedundancy::configCR` (lines 673-686):
the guard drops the request if redundancy support is absent, the feature is
disabled, or the status is already `inProgress`; otherwise the status
becomes `inProgress` and the fleet is put into warm-redundant mode.
(The timer cancels/restarts in lines 680-683 have no modelled state.)
The `reConfig` argument only matters for the settle continuation. -/
def configCREntry (st : CRState) : CRState × List PmbusWrite :=
  if st.crSupported = false ∨ st.powerSupplyRedundancyEnabled = false ∨
      st.coldRedundancyStatus = Status.inProgress then
    (st, [])
  else
    ({ st with coldRedundancyStatus := Status.inProgress },
      putWarmRedundantWrites st)

/-- The synchronous entry of `ColdRedundancy::rotateCR` (lines 767-776),
guarded identically to `configCREntry`. -/
def rotateCREntry (st : CRState) : CRState × List PmbusWrite :=
  if st.crSupported = false ∨ st.powerSupplyRedundancyEnabled = false ∨
      st.coldRedundancyStatus = Status.inProgress then
    (st, [])
  else
    ({ st with coldRedundancyStatus := Status.inProgress },
      putWarmRedundantWrites st)

/-- The loop body of the `bmcSpecific` branch of
`ColdRedundancy::reRanking` (lines 631-657).  `index` and `psuNumber` are
the `uint8_t` locals of the source (hence the `% 256`); `orders` is the
local copy of `rotationRankOrder`.  Returns the updated fleet and the
updated orders vector. -/
def reRankLoop : Nat → Nat → List Nat → List PowerSupply →
    List PowerSupply × List Nat
  | _, _, orders, [] => ([], orders)
  | index, psuNumber, orders, p :: rest =>
    let newOrd : Nat := if p.state = PSUState.normal then index else 0
    let index2 : Nat :=
      if p.state = PSUState.normal then (index + 1) % 256 else index
    let orders2 : List Nat :=
      if psuNumber < orders.length then orders.set psuNumber newOrd else orders
    let psuNumber2 : Nat :=
      if psuNumber < orders.length then (psuNumber + 1) % 256 else psuNumber
    let res := reRankLoop index2 psuNumber2 orders2 rest
    ({ p with order := newOrd } :: res.1, res.2)

/-- The `bmcSpecific` branch of `ColdRedundancy::reRanking`: run the loop
with `index = 1`, `psuNumber = 0` over the fleet and store the resulting
orders vector back into `rotationRankOrder`. -/
def reRankingBmc (st : CRState) : CRState :=
  let res := reRankLoop 1 0 st.rotationRankOrder st.powerSupplies
  { st with powerSupplies := res.1, rotationRankOrder := res.2 }

/-- `ColdRedundancy::reRanking` (lines 625-671) with the self-recursion
made structural on a fuel argument: the `userSpecific` branch, on finding
an `acLost` PSU, sets the algorithm to `bmcSpecific` and calls itself once.
The recursive call always observes `bmcSpecific`, so the fuel-exhausted
branch (which returns the state unchanged) is unreachable for positive
fuel; `reRankingGo_fuel` below proves the fuel is irrelevant. -/
def reRankingGo : Nat → CRState → CRState
  | 0, st =>
    if st.rotationAlgorithm = Algo.bmcSpecific then reRankingBmc st
    else st
  | fuel + 1, st =>
    if st.rotationAlgorithm = Algo.bmcSpecific then reRankingBmc st
    else if st.powerSupplies.any (fun p => decide (p.state = PSUState.acLost)) then
      reRankingGo fuel { st with rotationAlgorithm := Algo.bmcSpecific }
    else st

/-- `ColdRedundancy::reRanking`. -/
def reRanking (st : CRState) : CRState :=
  reRankingGo 1 st

/-- Number of `reRanking` invocations performed for a given starting state
(the outer call plus any self-recursive calls), mirroring the recursion
structure of `reRankingGo`. -/
def reRankingCallsGo : Nat → CRState → Nat
  | 0, _ => 1
  | fuel + 1, st =>
    if st.rotationAlgorithm = Algo.bmcSpecific then 1
    else if st.powerSupplies.any (fun p => decide (p.state = PSUState.acLost)) then
      1 + reRankingCallsGo fuel { st with rotationAlgorithm := Algo.bmcSpecific }
    else 1

/-- Total `reRanking` call count for a top-level invocation. -/
def reRankingCalls (st : CRState) : Nat :=
  reRankingCallsGo 1 st

/-- The rotation loop of the `rotateCR` settle continuation
(lines 801-813): PSUs with order `0` are skipped (`continue`); every other
PSU increments its order, wrapping to `1` when the incremented order
exceeds `goodPSUCount`, and the new order is written via `writePmbus`
(whose `value` parameter is a `uint8_t`, hence the `% 256` on the emitted
write). -/
def rotateLoop (goodPSUCount : Nat) : List PowerSupply →
    List PowerSupply × List PmbusWrite
  | [] => ([], [])
  | p :: rest =>
    if p.order = 0 then
      let res := rotateLoop goodPSUCount rest
      (p :: res.1, res.2)
    else
      let newOrder : Nat :=
        if goodPSUCount < p.order + 1 then 1 else p.order + 1
      let res := rotateLoop goodPSUCount rest
      ({ p with order := newOrder } :: res.1,
        ⟨p.bus, p.address, newOrder % 256⟩ :: res.2)

/-- The settle-timer continuation of `ColdRedundancy::configCR`
(lines 688-715): on cancellation or error the status is set to `completed`
and nothing else happens; on fire, optionally re-rank, then write the
order of every `normal` PSU with nonzero order, then set `completed`. -/
def configCRSettle (ec : TimerResult) (reConfig : Bool) (st : CRState) :
    CRState × List PmbusWrite :=
  match ec with
  | TimerResult.aborted =>
    ({ st with coldRedundancyStatus := Status.completed }, [])
  | TimerResult.otherError =>
    ({ st with coldRedundancyStatus := Status.completed }, [])
  | TimerResult.fired =>
    let st1 := if reConfig then reRanking st else st
    let writes := st1.powerSupplies.filterMap fun p =>
      if p.state = PSUState.normal ∧ p.order ≠ 0 then
        some ⟨p.bus, p.address, p.order % 256⟩
      else none
    ({ st1 with coldRedundancyStatus := Status.completed }, writes)

/-- The settle-timer continuation of `ColdRedundancy::rotateCR`
(lines 778-822): on cancellation or error the status is set to `completed`
and nothing else happens; on fire, count the `normal` PSUs, rotate every
nonzero order with `rotateLoop`, store the resulting order sequence into
`rotationRankOrder` (a `vector<uint8_t>`, hence `% 256`), and set
`completed`. -/
def rotateCRSettle (ec : TimerResult) (st : CRState) :
    CRState × List PmbusWrite :=
  match ec with
  | TimerResult.aborted =>
    ({ st with coldRedundancyStatus := Status.completed }, [])
  | TimerResult.otherError =>
    ({ st with coldRedundancyStatus := Status.completed }, [])
  | TimerResult.fired =>
    let good := normalCount st.powerSupplies
    let res := rotateLoop good st.powerSupplies
    ({ st with
        powerSupplies := res.1
        rotationRankOrder := res.1.map (fun p => p.order % 256)
        coldRedundancyStatus := Status.completed }, res.2)

/-- The health classification performed by the timer body of
`ColdRedundancy::checkRedundancyEvent` (lines 930-1027), as the
association value it publishes (at most one `set_property` per
evaluation): compare the current workable count with the previous one and
with `redundantCount` / `numberOfPSU`. -/
def classify (workable previous redundantCnt total : Nat) :
    Option HealthClass :=
  if previous < workable then
    if redundantCnt ≤ workable then
      if workable = total then some HealthClass.ok
      else if previous < redundantCnt then some HealthClass.warning
      else none
    else if previous = 0 then some HealthClass.nonCritical
    else none
  else if workable < previous then
    if redundantCnt ≤ workable then some HealthClass.warning
    else if workable = 0 then some HealthClass.critical
    else if redundantCnt ≤ previous then some HealthClass.warning
    else none
  else none

/-- One fired evaluation of the `checkRedundancyEvent` timer body: compute
`psuWorkable` from the fleet, classify against the previous workable
count, and return the emitted class together with the new
`psuPreviousWorkable` (which is set to `psuWorkable` unconditionally at
line 1028). -/
def checkRedundancyEventEval (ps : List PowerSupply)
    (previous redundantCnt total : Nat) : Option HealthClass × Nat :=
  (classify (normalCount ps) previous redundantCnt total, normalCount ps)

/-- Number of association/health emissions of one evaluation. -/
def emissionCount (e : Option HealthClass) : Nat :=
  match e with
  | some _ => 1
  | none => 0

/-- The rotation-period ingestion of the constructor's settings callback
(lines 113-122): an in-range period is stored via `periodOfRotation`,
an out-of-range one is only logged and the prior value kept.
`minRotationPeriod` / `maxRotationPeriod` are named constants from
`cold_redundancy.hpp` (not part of the given sources) and are taken here
as parameters. -/
def ingestPeriod (minP maxP period prior : Nat) : Nat :=
  if minP ≤ period ∧ period ≤ maxP then period else prior

/-- The `RotationRankOrder` assignment loop of the `refreshConfig` handler
(lines 188-200): `index` is the `uint8_t` local of the source (hence the
`% 256`); a PSU whose index is within the received rank sequence takes the
rank at that position, any other PSU gets order `0`. -/
def applyRankOrder (pRank : List Nat) : Nat → List PowerSupply →
    List PowerSupply
  | _, [] => []
  | index, p :: rest =>
    (if h : index < pRank.length then { p with order := pRank.get ⟨index, h⟩ }
     else { p with order := 0 }) ::
      applyRankOrder pRank ((index + 1) % 256) rest

/-- The `RotationRankOrder` branch of the `refreshConfig` handler
(lines 180-204): apply the received rank sequence to the fleet, then
trigger `configCR(false)`. -/
def refreshConfigRank (st : CRState) (pRank : List Nat) :
    CRState × List PmbusWrite :=
  configCREntry { st with powerSupplies := applyRankOrder pRank 0 st.powerSupplies }

/-- Oracle for one iteration of the `writePmbus` retry loop: whether the
`i2cSet` call fails, and the result of the `i2cGet` verification read
(`none` when the read itself fails). -/
structure I2cStep where
  setFails : Bool
  getResult : Option Int
  deriving DecidableEq, Repr

/-- The value of the `tmpValue` local after the loop body of
`ColdRedundancy::writePmbus` (lines 869-887) at iteration `i`: a failed
`i2cSet` skips the verification read (`continue`), a failed `i2cGet`
leaves `tmpValue` unchanged, a successful read stores the value read. -/
def wpBodyTmp (env : Nat → I2cStep) (tmp : Int) (i : Nat) : Int :=
  if (env i).setFails then tmp
  else
    match (env i).getResult with
    | none => tmp
    | some v => v

/-- The `do { ... } while (i++ < retryCount && tmpValue != value)` loop of
`ColdRedundancy::writePmbus`, returning the number of loop-body
(write-then-verify) iterations executed.  `i` is the loop counter; the
condition compares the pre-increment value of `i` with `retryCount`, so
the loop can continue only while `i < retryCount`, which bounds the number
of remaining iterations: `fuel` is that bound (`retryCount - i`), making
the recursion structural.  When fuel reaches `0` we have `i = retryCount`,
the condition `i < retryCount` is false, and the count is `i + 1`
regardless of the body's outcome. -/
def wpGo (env : Nat → I2cStep) (value : Int) :
    Nat → Nat → Int → Nat
  | 0, i, _ => i + 1
  | fuel + 1, i, tmp =>
    let tmp2 := wpBodyTmp env tmp i
    if i < retryCount ∧ tmp2 ≠ value then wpGo env value fuel (i + 1) tmp2
    else i + 1

/-- Total number of write-then-verify attempts performed by one call of
`ColdRedundancy::writePmbus` with I2C behaviour `env` and written value
`value` (`tmpValue` starts at `-1`, `i` at `0`). -/
def writePmbusAttempts (env : Nat → I2cStep) (value : Int) : Nat :=
  wpGo env value retryCount 0 (-1)

/-- Specification-side description of the `bmcSpecific` re-ranking result
(spec §4.2): iterate the fleet in order, assign ascending ranks
`k, k+1, …` to `normal` PSUs, skipping none, and `0` to any other PSU.
This is the statement the source is compared against; it deliberately has
no `% 256`. -/
def specRankAssign : Nat → List PowerSupply → List PowerSupply
  | _, [] => []
  | k, p :: rest =>
    if p.state = PSUState.normal then
      { p with order := k } :: specRankAssign (k + 1) rest
    else
      { p with order := 0 } :: specRankAssign k rest

/-- Specification-side description of the `RotationRankOrder` positional
assignment (claim C10): the PSU at fleet index `i` takes the rank at
position `i` of the received sequence when `i` is within the sequence, and
order `0` otherwise.  Deliberately without the `uint8_t` wrap. -/
def specPositionalAssign (pRank : List Nat) : Nat → List PowerSupply →
    List PowerSupply
  | _, [] => []
  | i, p :: rest =>
    (if h : i < pRank.length then { p with order := pRank.get ⟨i, h⟩ }
     else { p with order := 0 }) :: specPositionalAssign pRank (i + 1) rest

/-! Concrete fleets and states used by the closed witness and
counterexample theorems below. -/

/-- A state whose status is already `inProgress` (guard case of C1). -/
def stC1 : CRState :=
  ⟨true, true, true, Algo.bmcSpecific, [1, 2, 3, 4], Status.inProgress, 2, 1,
    [⟨"a", 0, 0, 1, PSUState.normal⟩]⟩

/-- A fleet of 256 PSUs, all in `normal` state. -/
def psC2 : List PowerSupply :=
  List.replicate 256 ⟨"p", 0, 0, 0, PSUState.normal⟩

/-- `bmcSpecific` state over the 256-normal fleet. -/
def stC2 : CRState :=
  ⟨true, true, true, Algo.bmcSpecific, [1, 2, 3, 4], Status.completed, 2, 256, psC2⟩

/-- A small mixed fleet in `bmcSpecific` mode. -/
def stC2w : CRState :=
  ⟨true, true, true, Algo.bmcSpecific, [1, 2, 3, 4], Status.completed, 2, 3,
    [⟨"a", 0, 0, 0, PSUState.normal⟩, ⟨"b", 0, 1, 0, PSUState.acLost⟩,
      ⟨"c", 0, 2, 0, PSUState.normal⟩]⟩

/-- A fleet of 256 `normal` PSUs holding ranks 1..256 (PSU with rank `k`
sits at address `k`). -/
def psC3 : List PowerSupply :=
  (List.range' 1 256).map fun k => ⟨"p", 0, k, k, PSUState.normal⟩

/-- State over the 256-rank fleet. -/
def stC3 : CRState :=
  ⟨true, true, true, Algo.bmcSpecific, [], Status.completed, 2, 256, psC3⟩

/-- A fleet of two `normal` PSUs holding ranks `{1, 2}`. -/
def stC3w : CRState :=
  ⟨true, true, true, Algo.bmcSpecific, [1, 2], Status.completed, 2, 2,
    [⟨"a", 1, 10, 1, PSUState.normal⟩, ⟨"b", 1, 11, 2, PSUState.normal⟩]⟩

/-- One `acLost` PSU followed by 256 `normal` PSUs. -/
def psC4 : List PowerSupply :=
  ⟨"a", 0, 0, 0, PSUState.acLost⟩ ::
    List.replicate 256 ⟨"p", 0, 0, 0, PSUState.normal⟩

/-- `userSpecific` state over `psC4`. -/
def stC4 : CRState :=
  ⟨true, true, true, Algo.userSpecific, [1, 2, 3, 4], Status.completed, 2, 257, psC4⟩

/-- A small `userSpecific` state with one `acLost` PSU. -/
def stC4w : CRState :=
  ⟨true, true, true, Algo.userSpecific, [1, 2, 3, 4], Status.completed, 2, 2,
    [⟨"a", 0, 0, 2, PSUState.acLost⟩, ⟨"b", 0, 1, 1, PSUState.normal⟩]⟩

/-- I2C behaviour where every verification read returns `1`. -/
def envC5bad : Nat → I2cStep := fun _ => ⟨false, some 1⟩

/-- I2C behaviour where every verification read returns `0`. -/
def envC5ok : Nat → I2cStep := fun _ => ⟨false, some 0⟩

/-- Two `normal` PSUs (total fleet size 2). -/
def psC6 : List PowerSupply :=
  [⟨"p1", 0, 0, 1, PSUState.normal⟩, ⟨"p2", 0, 1, 2, PSUState.normal⟩]

/-- Two `normal` PSUs used for the classifier-tie counterexample. -/
def psC7 : List PowerSupply :=
  [⟨"q1", 0, 0, 1, PSUState.normal⟩, ⟨"q2", 0, 1, 2, PSUState.normal⟩]

/-- A single-PSU fleet for the classifier-tie witness. -/
def psC7w : List PowerSupply := [⟨"w7", 0, 0, 1, PSUState.normal⟩]

/-- A state whose settle continuation is pending (status `inProgress`). -/
def stC8 : CRState :=
  ⟨true, true, true, Algo.bmcSpecific, [1], Status.inProgress, 2, 1,
    [⟨"a", 0, 0, 1, PSUState.normal⟩]⟩

/-- A fleet of 257 PSUs, all `normal`, all holding order 3. -/
def psC10 : List PowerSupply :=
  List.replicate 257 ⟨"p", 0, 0, 3, PSUState.normal⟩

/-- State over the 257-PSU fleet with a one-element stored rank order. -/
def stC10 : CRState :=
  ⟨true, true, true, Algo.bmcSpecific, [5], Status.completed, 2, 257, psC10⟩

/-- A two-PSU state for the rank-order-application witness. -/
def stC10w : CRState :=
  ⟨true, true, true, Algo.bmcSpecific, [1, 2], Status.completed, 2, 2,
    [⟨"a", 0, 0, 1, PSUState.normal⟩, ⟨"b", 0, 1, 2, PSUState.normal⟩]⟩

/-! Helper lemmas shared by the claim theorems. -/

/-- Unfolding of `reRankingGo` at fuel 1. -/
theorem reRankingGo_one (st : CRState) :
    reRankingGo 1 st =
      if st.rotationAlgorithm = Algo.bmcSpecific then reRankingBmc st
      else if st.powerSupplies.any (fun p => decide (p.state = PSUState.acLost)) then
        reRankingGo 0 { st with rotationAlgorithm := Algo.bmcSpecific }
      else st := rfl

/-- Unfolding of `reRankingGo` at fuel 0. -/
theorem reRankingGo_zero (st : CRState) :
    reRankingGo 0 st =
      if st.rotationAlgorithm = Algo.bmcSpecific then reRankingBmc st
      else st := rfl

/-- Unfolding of `reRankingCallsGo` at fuel 1. -/
theorem reRankingCallsGo_one (st : CRState) :
    reRankingCallsGo 1 st =
      if st.rotationAlgorithm = Algo.bmcSpecific then 1
      else if st.powerSupplies.any (fun p => decide (p.state = PSUState.acLost)) then
        1 + reRankingCallsGo 0 { st with rotationAlgorithm := Algo.bmcSpecific }
      else 1 := rfl

/-- A state already in `bmcSpecific` mode takes the first branch whatever
the fuel: the nested call of the fallback never recurses again. -/
theorem reRankingGo_bmc (fuel : Nat) (st : CRState)
    (h : st.rotationAlgorithm = Algo.bmcSpecific) :
    reRankingGo fuel st = reRankingBmc st := by
  cases fuel with
  | zero => rw [reRankingGo_zero, if_pos h]
  | succ n =>
    show (if st.rotationAlgorithm = Algo.bmcSpecific then reRankingBmc st
      else if st.powerSupplies.any (fun p => decide (p.state = PSUState.acLost)) then
        reRankingGo n { st with rotationAlgorithm := Algo.bmcSpecific }
      else st) = _
    rw [if_pos h]

/-- Any positive fuel gives the same `reRankingGo` result: the nested call
observes `bmcSpecific` and never recurses again. -/
theorem reRankingGo_fuel (st : CRState) (fuel : Nat) :
    reRankingGo (fuel + 1) st = reRankingGo 1 st := by
  rw [reRankingGo_one]
  show (if st.rotationAlgorithm = Algo.bmcSpecific then reRankingBmc st
    else if st.powerSupplies.any (fun p => decide (p.state = PSUState.acLost)) then
      reRankingGo fuel { st with rotationAlgorithm := Algo.bmcSpecific }
    else st) = _
  by_cases h1 : st.rotationAlgorithm = Algo.bmcSpecific
  · rw [if_pos h1, if_pos h1]
  · rw [if_neg h1, if_neg h1]
    by_cases h2 :
      st.powerSupplies.any (fun p => decide (p.state = PSUState.acLost)) = true
    · rw [if_pos h2, if_pos h2, reRankingGo_bmc fuel _ rfl,
        reRankingGo_bmc 0 _ rfl]
    · rw [if_neg h2, if_neg h2]

/-- A fleet with no `normal` PSU is mapped to all-zero orders by the
re-ranking loop, whatever the loop counters hold. -/
theorem reRankLoop_no_normal (ps : List PowerSupply) :
    ∀ index pn os, normalCount ps = 0 →
      (reRankLoop index pn os ps).1 = ps.map (fun p => { p with order := 0 }) := by
  induction ps with
  | nil =>
    intro _ _ _ _
    rfl
  | cons p rest ih =>
    intro index pn os h
    simp only [normalCount, List.countP_cons] at h
    by_cases hp : p.state = PSUState.normal
    · simp [hp] at h
    · have hrest : normalCount rest = 0 := by
        simp only [hp, decide_False, if_false, Nat.add_zero] at h
        exact h
      simp only [reRankLoop, hp, if_false, List.map_cons]
      exact congrArg (List.cons _) (ih _ _ _ hrest)

/-- A fleet with no `normal` PSU is mapped to all-zero orders by the
specification-side assignment, whatever the starting rank. -/
theorem specRankAssign_no_normal (ps : List PowerSupply) :
    ∀ k, normalCount ps = 0 →
      specRankAssign k ps = ps.map (fun p => { p with order := 0 }) := by
  induction ps with
  | nil =>
    intro _ _
    rfl
  | cons p rest ih =>
    intro k h
    simp only [normalCount, List.countP_cons] at h
    by_cases hp : p.state = PSUState.normal
    · simp [hp] at h
    · have hrest : normalCount rest = 0 := by
        simp only [hp, decide_False, if_false, Nat.add_zero] at h
        exact h
      simp only [specRankAssign, hp, if_false, List.map_cons]
      exact congrArg (List.cons _) (ih _ hrest)

/-- As long as the starting rank plus the number of `normal` PSUs stays
below 256, the `uint8_t` index of the re-ranking loop never wraps and the
loop computes exactly the specification-side contiguous assignment. -/
theorem reRankLoop_eq_spec (ps : List PowerSupply) :
    ∀ k pn os, k + normalCount ps ≤ 256 → k ≤ 255 →
      (reRankLoop k pn os ps).1 = specRankAssign k ps := by
  induction ps with
  | nil =>
    intro k pn os _ _
    rfl
  | cons p rest ih =>
    intro k pn os hsum hk
    by_cases hp : p.state = PSUState.normal
    · have hcount : normalCount (p :: rest) = normalCount rest + 1 := by
        simp [normalCount, List.countP_cons, hp]
      rw [hcount] at hsum
      by_cases hrest : normalCount rest = 0
      · simp only [reRankLoop, specRankAssign, hp, if_true]
        refine congrArg (List.cons _) ?_
        rw [reRankLoop_no_normal rest _ _ _ hrest,
          specRankAssign_no_normal rest _ hrest]
      · have h1 : k + 1 + normalCount rest ≤ 256 := by omega
        have h2 : k + 1 ≤ 255 := by omega
        have hmod : (k + 1) % 256 = k + 1 := Nat.mod_eq_of_lt (by omega)
        simp only [reRankLoop, specRankAssign, hp, if_true, hmod]
        exact congrArg (List.cons _) (ih (k + 1) _ _ h1 h2)
    · have hcount : normalCount (p :: rest) = normalCount rest := by
        simp [normalCount, List.countP_cons, hp]
      rw [hcount] at hsum
      simp only [reRankLoop, specRankAssign, hp, if_false]
      exact congrArg (List.cons _) (ih k _ _ hsum hk)

/-- A fleet in which every PSU is `normal` has workable count equal to its
length. -/
theorem normalCount_eq_length (ps : List PowerSupply)
    (h : ∀ p ∈ ps, p.state = PSUState.normal) :
    normalCount ps = ps.length := by
  simp only [normalCount]
  rw [List.countP_eq_length]
  intro a ha
  simp [h a ha]

/-- When every order lies in `[1, g]` and `g ≤ 255`, the rotation loop
increments every order, wrapping `g` to `1`, and issues exactly one
register write per PSU carrying the updated order. -/
theorem rotateLoop_eq (g : Nat) (hg : g ≤ 255) :
    ∀ ps : List PowerSupply, (∀ p ∈ ps, 1 ≤ p.order ∧ p.order ≤ g) →
      rotateLoop g ps =
        (ps.map (fun p =>
            { p with order := if p.order = g then 1 else p.order + 1 }),
          ps.map (fun p =>
            PmbusWrite.mk p.bus p.address
              (if p.order = g then 1 else p.order + 1))) := by
  intro ps
  induction ps with
  | nil =>
    intro _
    rfl
  | cons p rest ih =>
    intro h
    have hp := h p (by simp)
    have hrest : ∀ q ∈ rest, 1 ≤ q.order ∧ q.order ≤ g := fun q hq =>
      h q (by simp [hq])
    have hne : ¬ p.order = 0 := by omega
    have hord : (if g < p.order + 1 then 1 else p.order + 1) =
        (if p.order = g then 1 else p.order + 1) := by
      by_cases heq : p.order = g
      · have hlt : g < p.order + 1 := by omega
        rw [if_pos hlt, if_pos heq]
      · have hnlt : ¬ g < p.order + 1 := by omega
        rw [if_neg hnlt, if_neg heq]
    have hmod : (if p.order = g then 1 else p.order + 1) % 256 =
        (if p.order = g then 1 else p.order + 1) :=
      Nat.mod_eq_of_lt (by split <;> omega)
    simp only [rotateLoop, hne, if_false, List.map_cons, ih hrest, hord,
      hmod, Prod.mk.injEq]

/-- Every evaluation publishes at most one association class. -/
theorem emissionCount_le_one (e : Option HealthClass) : emissionCount e ≤ 1 := by
  cases e <;> simp [emissionCount]

/-- The write-retry loop runs at most `fuel` further iterations beyond the
current one. -/
theorem wpGo_le (env : Nat → I2cStep) (value : Int) :
    ∀ fuel i tmp, wpGo env value fuel i tmp ≤ i + fuel + 1 := by
  intro fuel
  induction fuel with
  | zero =>
    intro i tmp
    simp [wpGo]
  | succ fuel ih =>
    intro i tmp
    simp only [wpGo]
    split
    · have := ih (i + 1) (wpBodyTmp env tmp i)
      omega
    · omega

/-- Provided the `uint8_t` fleet index does not wrap (fleet of at most 256
PSUs when starting from 0), the `refreshConfig` assignment loop computes
the specification-side positional assignment. -/
theorem applyRankOrder_eq_spec (pRank : List Nat) :
    ∀ ps i, i + ps.length ≤ 256 →
      applyRankOrder pRank i ps = specPositionalAssign pRank i ps := by
  intro ps
  induction ps with
  | nil =>
    intro i _
    rfl
  | cons p rest ih =>
    intro i h
    cases rest with
    | nil => rfl
    | cons q qs =>
      have hmod : (i + 1) % 256 = i + 1 := by
        simp only [List.length_cons] at h
        exact Nat.mod_eq_of_lt (by omega)
      simp only [applyRankOrder, specPositionalAssign, hmod]
      refine congrArg (List.cons _) ?_
      refine ih (i + 1) ?_
      simp only [List.length_cons] at h ⊢
      omega

/-! The claim theorems. -/

/-- Claim C1: a `configCR` or `rotateCR` request made while redundancy
support is absent, the feature is disabled, or the status is already
`inProgress` is a complete no-op: the state (status and all PSU order
fields included) is returned unchanged and no register write is issued.
Since the status is a single flag guarded identically in both entry
points, at most one of the two operations is ever `inProgress`. -/
theorem guarded_requests_are_noops (st : CRState)
    (h : st.crSupported = false ∨ st.powerSupplyRedundancyEnabled = false ∨
      st.coldRedundancyStatus = Status.inProgress) :
    configCREntry st = (st, []) ∧ rotateCREntry st = (st, []) := by
  constructor
  · simp only [configCREntry]
    rw [if_pos h]
  · simp only [rotateCREntry]
    rw [if_pos h]

/-- Witness for C1 at a concrete state whose status is `inProgress`. -/
theorem guarded_requests_are_noops_witness :
    configCREntry stC1 = (stC1, []) ∧ rotateCREntry stC1 = (stC1, []) :=
  guarded_requests_are_noops stC1 (Or.inr (Or.inr rfl))

/-- Claim C5, counterexample: with every verification read returning a
wrong value, `writePmbus` performs 4 write-then-verify attempts — the
claim's "at most 3 total attempts, never a fourth" is false
(`do { ... } while (i++ < retryCount && ...)` with `retryCount = 3` runs
the body up to 4 times). -/
theorem write_pmbus_four_attempts :
    writePmbusAttempts envC5bad 0 = 4 ∧
      ¬ writePmbusAttempts envC5bad 0 ≤ 3 := by
  decide

/-- Claim C5 (amended): for every I2C behaviour and value, `writePmbus`
performs at most 4 total write-then-verify attempts (one initial attempt
plus `retryCount = 3` retries) and never a fifth; it stops early as soon
as a verification read returns the written value (whenever the body at
iteration `i` leaves `tmpValue` equal to `value`, the loop exits with
`i + 1` attempts performed). -/
theorem write_pmbus_attempt_budget (env : Nat → I2cStep) (value : Int) :
    writePmbusAttempts env value ≤ 4 ∧
      (∀ fuel i tmp, wpBodyTmp env tmp i = value →
        wpGo env value (fuel + 1) i tmp = i + 1) := by
  constructor
  · have h := wpGo_le env value retryCount 0 (-1)
    simpa [writePmbusAttempts, retryCount] using h
  · intro fuel i tmp h
    simp [wpGo, h]

/-- Witness for C5's amended theorem at a concrete environment. -/
theorem write_pmbus_attempt_budget_witness :
    writePmbusAttempts envC5ok 0 ≤ 4 ∧ wpGo envC5ok 0 1 0 (-1) = 1 :=
  ⟨(write_pmbus_attempt_budget envC5ok 0).1,
    (write_pmbus_attempt_budget envC5ok 0).2 0 0 (-1) (by decide)⟩

/-- Claim C6, counterexample: an evaluation with `workable = 2 > 1 =
previous` and `workable = total = 2` but `redundantCount = 3` emits
nothing — the `Ok` branch sits under `psuWorkable >= redundantCount()`,
so the claim's "with no further precondition on redundantCount" is
false. -/
theorem full_redundancy_needs_redundant_count :
    1 < normalCount psC6 ∧ normalCount psC6 = 2 ∧
      (checkRedundancyEventEval psC6 1 3 2).1 = none := by
  decide

/-- Claim C6 (amended): an evaluation in which the workable count strictly
exceeds the previous count, equals the fleet total, and is at least
`redundantCount`, emits the `Ok` class. -/
theorem full_redundancy_regained_ok (ps : List PowerSupply)
    (previous redundantCnt total : Nat)
    (h1 : previous < normalCount ps) (h2 : normalCount ps = total)
    (h3 : redundantCnt ≤ normalCount ps) :
    (checkRedundancyEventEval ps previous redundantCnt total).1 =
      some HealthClass.ok := by
  subst h2
  simp [checkRedundancyEventEval, classify, h1, h3]

/-- Witness for C6's amended theorem at a concrete fleet. -/
theorem full_redundancy_regained_ok_witness :
    (checkRedundancyEventEval psC6 1 2 2).1 = some HealthClass.ok :=
  full_redundancy_regained_ok psC6 1 2 2 (by decide) (by decide) (by decide)

/-- Claim C7, counterexample: two consecutive evaluations with identical
workable counts can produce zero emissions in total (here both have
`workable = previous = 2`), so "exactly one class emission is produced in
total" is false. -/
theorem classifier_tie_zero_emissions :
    normalCount psC7 = 2 ∧
      (checkRedundancyEventEval psC7 2 2 2).2 = 2 ∧
      emissionCount (checkRedundancyEventEval psC7 2 2 2).1 +
        emissionCount (checkRedundancyEventEval psC7
          (checkRedundancyEventEval psC7 2 2 2).2 2 2).1 = 0 := by
  decide

/-- Claim C7 (amended): for every pair of consecutive evaluations with
identical workable counts, at most one class emission is produced in
total: the second evaluation, whose workable count equals the previous
count it observes, emits no class, while the previous-workable counter is
still updated (to the workable count) unconditionally. -/
theorem classifier_tie_second_noop (ps1 ps2 : List PowerSupply)
    (previous redundantCnt total : Nat)
    (h : normalCount ps2 = normalCount ps1) :
    (checkRedundancyEventEval ps2
      (checkRedundancyEventEval ps1 previous redundantCnt total).2
      redundantCnt total).1 = none ∧
    (checkRedundancyEventEval ps2
      (checkRedundancyEventEval ps1 previous redundantCnt total).2
      redundantCnt total).2 = normalCount ps2 ∧
    emissionCount (checkRedundancyEventEval ps1 previous redundantCnt total).1 +
      emissionCount (checkRedundancyEventEval ps2
        (checkRedundancyEventEval ps1 previous redundantCnt total).2
        redundantCnt total).1 ≤ 1 := by
  have h2 : (checkRedundancyEventEval ps2
      (checkRedundancyEventEval ps1 previous redundantCnt total).2
      redundantCnt total).1 = none := by
    simp [checkRedundancyEventEval, classify, h]
  refine ⟨h2, rfl, ?_⟩
  have hnone : emissionCount none = 0 := rfl
  rw [h2, hnone, Nat.add_zero]
  exact emissionCount_le_one
    (checkRedundancyEventEval ps1 previous redundantCnt total).1

/-- Witness for C7's amended theorem with two identical single-PSU
evaluations. -/
theorem classifier_tie_second_noop_witness :
    (checkRedundancyEventEval psC7w
      (checkRedundancyEventEval psC7w 0 1 1).2 1 1).1 = none ∧
    (checkRedundancyEventEval psC7w
      (checkRedundancyEventEval psC7w 0 1 1).2 1 1).2 = normalCount psC7w ∧
    emissionCount (checkRedundancyEventEval psC7w 0 1 1).1 +
      emissionCount (checkRedundancyEventEval psC7w
        (checkRedundancyEventEval psC7w 0 1 1).2 1 1).1 ≤ 1 :=
  classifier_tie_second_noop psC7w psC7w 0 1 1 rfl

/-- Claim C8: a settle-timer continuation of `configCR` or `rotateCR` that
is cancelled (superseded) or errors sets the status to `completed`,
performs none of the final rank register writes, and changes nothing
else — the status is never left stuck at `inProgress`. -/
theorem settle_cancel_completes_without_writes (ec : TimerResult) (b : Bool)
    (st : CRState)
    (h : ec = TimerResult.aborted ∨ ec = TimerResult.otherError) :
    configCRSettle ec b st =
      ({ st with coldRedundancyStatus := Status.completed }, []) ∧
    rotateCRSettle ec st =
      ({ st with coldRedundancyStatus := Status.completed }, []) := by
  rcases h with h | h <;> subst h <;> exact ⟨rfl, rfl⟩

/-- Witness for C8 at a concrete `inProgress` state with an aborted
timer. -/
theorem settle_cancel_completes_without_writes_witness :
    configCRSettle TimerResult.aborted false stC8 =
      ({ stC8 with coldRedundancyStatus := Status.completed }, []) ∧
    rotateCRSettle TimerResult.aborted stC8 =
      ({ stC8 with coldRedundancyStatus := Status.completed }, []) :=
  settle_cancel_completes_without_writes TimerResult.aborted false stC8
    (Or.inl rfl)

/-- Claim C9: a rotation-period value inside the documented
`[minRotationPeriod, maxRotationPeriod]` range is accepted and stored; an
out-of-range value is rejected and the previously held period retained
unchanged. -/
theorem rotation_period_ingestion_clamps (minP maxP period prior : Nat) :
    (minP ≤ period ∧ period ≤ maxP →
      ingestPeriod minP maxP period prior = period) ∧
    (¬ (minP ≤ period ∧ period ≤ maxP) →
      ingestPeriod minP maxP period prior = prior) := by
  constructor
  · intro h
    simp [ingestPeriod, h]
  · intro h
    simp [ingestPeriod, h]

/-- Witness for C9 with one in-range and one out-of-range period. -/
theorem rotation_period_ingestion_clamps_witness :
    ingestPeriod 10 100 50 7 = 50 ∧ ingestPeriod 10 100 5000 7 = 7 :=
  ⟨(rotation_period_ingestion_clamps 10 100 50 7).1 (by decide),
    (rotation_period_ingestion_clamps 10 100 5000 7).2 (by decide)⟩

set_option maxRecDepth 4096 in
/-- Claim C2, counterexample: in a fleet of 256 `normal` PSUs under
`bmcSpecific`, the `uint8_t` rank index wraps and the 256th `normal` PSU
receives rank 0 — refuting "ranks 1, 2, 3, … are assigned to exactly the
PSUs whose state is Normal, and rank 0 to every PSU whose state is not
Normal" for every fleet. -/
theorem bmc_reranking_wraps_at_256 :
    (∀ p ∈ psC2, p.state = PSUState.normal) ∧
    stC2.rotationAlgorithm = Algo.bmcSpecific ∧
    ((reRanking stC2).powerSupplies.getLast?).map
      (fun p => (p.order, p.state)) = some (0, PSUState.normal) := by
  decide

/-- Claim C2 (amended): for every fleet with at most 255 `normal` PSUs,
re-ranking under `bmcSpecific` assigns the ranks 1, 2, 3, … as a
contiguous ascending sequence, in fleet order, to exactly the PSUs whose
state is `normal`, and rank 0 to every other PSU: the resulting fleet
equals the specification-side assignment `specRankAssign 1`. -/
theorem bmc_reranking_contiguous (st : CRState)
    (halgo : st.rotationAlgorithm = Algo.bmcSpecific)
    (h255 : normalCount st.powerSupplies ≤ 255) :
    (reRanking st).powerSupplies = specRankAssign 1 st.powerSupplies := by
  show (reRankingGo 1 st).powerSupplies = _
  rw [reRankingGo_bmc 1 st halgo]
  show (reRankLoop 1 0 st.rotationRankOrder st.powerSupplies).1 = _
  exact reRankLoop_eq_spec st.powerSupplies 1 0 st.rotationRankOrder
    (by omega) (by omega)

/-- Witness for C2's amended theorem on a small mixed fleet. -/
theorem bmc_reranking_contiguous_witness :
    (reRanking stC2w).powerSupplies = specRankAssign 1 stC2w.powerSupplies :=
  bmc_reranking_contiguous stC2w rfl (by decide)

set_option maxRecDepth 4096 in
/-- Claim C3, counterexample: in a fleet of 256 `normal` PSUs holding
ranks 1..256, the PSU whose rank becomes 256 has the value 0 written to
its register (the `uint8_t value` parameter of `writePmbus` truncates
256), refuting "writes each updated rank to that PSU's register" for
every fleet size N. -/
theorem rotate_write_truncated_at_256 :
    psC3.map PowerSupply.order = List.range' 1 256 ∧
    (∀ p ∈ psC3, p.state = PSUState.normal) ∧
    ((rotateCRSettle TimerResult.fired stC3).1.powerSupplies.get? 254).map
      PowerSupply.order = some 256 ∧
    (rotateCRSettle TimerResult.fired stC3).2.get? 254 =
      some (PmbusWrite.mk 0 255 0) := by
  decide

/-- Claim C3 (amended): for every fleet of N ≤ 255 PSUs, all `normal`,
holding ranks {1..N}, the fired Rotate settle step maps each rank r to
r + 1 with N wrapping to 1 and writes each updated rank to that PSU's
register (one write per PSU, carrying the new rank); in general a PSU with
rank 0 is skipped by the rotation loop: it is kept unchanged and no write
is issued for it. -/
theorem rotate_cyclic_successor (st : CRState)
    (hall : ∀ p ∈ st.powerSupplies, p.state = PSUState.normal)
    (hperm : (st.powerSupplies.map PowerSupply.order).Perm
      (List.range' 1 st.powerSupplies.length))
    (hlen : st.powerSupplies.length ≤ 255) :
    (rotateCRSettle TimerResult.fired st).1.powerSupplies =
      st.powerSupplies.map (fun p =>
        { p with order := if p.order = st.powerSupplies.length then 1
          else p.order + 1 }) ∧
    (rotateCRSettle TimerResult.fired st).2 =
      st.powerSupplies.map (fun p =>
        PmbusWrite.mk p.bus p.address
          (if p.order = st.powerSupplies.length then 1 else p.order + 1)) ∧
    (∀ g (q : PowerSupply) qs, q.order = 0 →
      rotateLoop g (q :: qs) =
        (q :: (rotateLoop g qs).1, (rotateLoop g qs).2)) := by
  have hN : normalCount st.powerSupplies = st.powerSupplies.length :=
    normalCount_eq_length _ hall
  have hbounds : ∀ p ∈ st.powerSupplies,
      1 ≤ p.order ∧ p.order ≤ st.powerSupplies.length := by
    intro p hp
    have hmem : p.order ∈ st.powerSupplies.map PowerSupply.order :=
      List.mem_map_of_mem _ hp
    have hr := hperm.mem_iff.mp hmem
    rw [List.mem_range'_1] at hr
    omega
  have hloop := rotateLoop_eq st.powerSupplies.length hlen
    st.powerSupplies hbounds
  refine ⟨?_, ?_, ?_⟩
  · show (rotateLoop (normalCount st.powerSupplies) st.powerSupplies).1 = _
    rw [hN, hloop]
  · show (rotateLoop (normalCount st.powerSupplies) st.powerSupplies).2 = _
    rw [hN, hloop]
  · intro g q qs hq
    simp [rotateLoop, hq]

/-- Witness for C3's amended theorem on a two-PSU fleet with ranks
`{1, 2}`. -/
theorem rotate_cyclic_successor_witness :
    (rotateCRSettle TimerResult.fired stC3w).1.powerSupplies =
      stC3w.powerSupplies.map (fun p =>
        { p with order := if p.order = stC3w.powerSupplies.length then 1
          else p.order + 1 }) ∧
    (rotateCRSettle TimerResult.fired stC3w).2 =
      stC3w.powerSupplies.map (fun p =>
        PmbusWrite.mk p.bus p.address
          (if p.order = stC3w.powerSupplies.length then 1 else p.order + 1)) ∧
    (∀ g (q : PowerSupply) qs, q.order = 0 →
      rotateLoop g (q :: qs) =
        (q :: (rotateLoop g qs).1, (rotateLoop g qs).2)) :=
  rotate_cyclic_successor stC3w (by decide) (by decide) (by decide)

set_option maxRecDepth 4096 in
/-- Claim C4, counterexample: under `userSpecific` with one `acLost` PSU
followed by 256 `normal` PSUs, the fallback does force `bmcSpecific`, but
the recomputed ranking does not satisfy the contiguous-ascending property:
the 256th `normal` PSU ends with rank 0 (the `uint8_t` index wraps). -/
theorem user_fallback_wraps_at_256 :
    stC4.rotationAlgorithm = Algo.userSpecific ∧
    (∃ p ∈ stC4.powerSupplies, p.state = PSUState.acLost) ∧
    (reRanking stC4).rotationAlgorithm = Algo.bmcSpecific ∧
    ((reRanking stC4).powerSupplies.getLast?).map
      (fun p => (p.order, p.state)) = some (0, PSUState.normal) := by
  decide

/-- Claim C4 (amended): for every fleet containing an `acLost` PSU and at
most 255 `normal` PSUs, re-ranking invoked under `userSpecific` forces the
algorithm to `bmcSpecific` and recomputes the ranking so that the
`bmcSpecific` contiguous-ascending property holds; the self-recursive
fallback performs exactly one nested call (two `reRanking` invocations in
total) and terminates, because the nested call observes `bmcSpecific`. -/
theorem user_fallback_forces_bmc (st : CRState)
    (halgo : st.rotationAlgorithm = Algo.userSpecific)
    (hacl : ∃ p ∈ st.powerSupplies, p.state = PSUState.acLost)
    (h255 : normalCount st.powerSupplies ≤ 255) :
    (reRanking st).rotationAlgorithm = Algo.bmcSpecific ∧
    (reRanking st).powerSupplies = specRankAssign 1 st.powerSupplies ∧
    reRankingCalls st = 2 := by
  have hany : (st.powerSupplies.any
      fun p => decide (p.state = PSUState.acLost)) = true := by
    rw [List.any_eq_true]
    obtain ⟨p, hp, hs⟩ := hacl
    exact ⟨p, hp, by simp [hs]⟩
  have hne : ¬ st.rotationAlgorithm = Algo.bmcSpecific := by
    rw [halgo]
    intro hcontra
    exact Algo.noConfusion hcontra
  have hred : reRanking st =
      reRankingBmc { st with rotationAlgorithm := Algo.bmcSpecific } := by
    show reRankingGo 1 st = _
    rw [reRankingGo_one, if_neg hne, if_pos hany]
    exact reRankingGo_bmc 0 _ rfl
  have hcalls : reRankingCalls st = 2 := by
    show reRankingCallsGo 1 st = 2
    rw [reRankingCallsGo_one, if_neg hne, if_pos hany]
    rfl
  refine ⟨?_, ?_, hcalls⟩
  · rw [hred]
    rfl
  · rw [hred]
    show (reRankLoop 1 0 st.rotationRankOrder st.powerSupplies).1 = _
    exact reRankLoop_eq_spec st.powerSupplies 1 0 st.rotationRankOrder
      (by omega) (by omega)

/-- Witness for C4's amended theorem on a two-PSU fleet with one `acLost`
member. -/
theorem user_fallback_forces_bmc_witness :
    (reRanking stC4w).rotationAlgorithm = Algo.bmcSpecific ∧
    (reRanking stC4w).powerSupplies = specRankAssign 1 stC4w.powerSupplies ∧
    reRankingCalls stC4w = 2 :=
  user_fallback_forces_bmc stC4w rfl (by decide) (by decide)

set_option maxRecDepth 4096 in
/-- Claim C10, counterexample: with a fleet of 257 PSUs and a one-element
rank sequence, the `uint8_t` fleet index wraps and the PSU at fleet index
256 receives the rank at position 0 (here 5) instead of the claimed
order 0. -/
theorem rank_order_wraps_at_257 :
    psC10.length = 257 ∧
    ((refreshConfigRank stC10 [5]).1.powerSupplies.get? 256).map
      PowerSupply.order = some 5 ∧
    ¬ ((refreshConfigRank stC10 [5]).1.powerSupplies.get? 256).map
      PowerSupply.order = some 0 := by
  decide

/-- Claim C10 (amended): for every fleet of at most 256 PSUs, the
`RotationRankOrder` handler assigns to each PSU at a fleet index below the
received sequence length the rank at its positional index and order 0 to
every PSU at an index at or beyond the sequence length
(`specPositionalAssign`), and the assignment is applied to the fleet
before `configCR` is triggered. -/
theorem rank_order_positional_assignment (st : CRState) (pRank : List Nat)
    (h : st.powerSupplies.length ≤ 256) :
    (refreshConfigRank st pRank).1.powerSupplies =
      specPositionalAssign pRank 0 st.powerSupplies ∧
    refreshConfigRank st pRank =
      configCREntry { st with
        powerSupplies := applyRankOrder pRank 0 st.powerSupplies } := by
  have hps : applyRankOrder pRank 0 st.powerSupplies =
      specPositionalAssign pRank 0 st.powerSupplies :=
    applyRankOrder_eq_spec pRank st.powerSupplies 0 (by omega)
  constructor
  · show (configCREntry { st with
      powerSupplies := applyRankOrder pRank 0 st.powerSupplies
        }).1.powerSupplies = _
    simp only [configCREntry]
    split
    · exact hps
    · exact hps
  · rfl

/-- Witness for C10's amended theorem on a two-PSU fleet with a
one-element rank sequence. -/
theorem rank_order_positional_assignment_witness :
    (refreshConfigRank stC10w [7]).1.powerSupplies =
      specPositionalAssign [7] 0 stC10w.powerSupplies ∧
    refreshConfigRank stC10w [7] =
      configCREntry { stC10w with
        powerSupplies := applyRankOrder [7] 0 stC10w.powerSupplies } :=
  rank_order_positional_assignment stC10w [7] (by decide)
